import Mathlib

/-!
Verification development for the tesseroid gravity-field orchestrator
(`fatiando/gravmag/tesseroid.py`).

The file shallowly embeds the orchestrator layer of the module: input
validation, coordinate conversion, engine selection, density resolution,
the per-tesseroid dispatch loop, the array-splitting parallel shim, and
the ten public field functions with their per-field post-scaling.

Real numbers are modelled as rationals.  The numerical backend module
(`_tesseroid_numba`, not part of the sources) is modelled from the spec
as an abstract per-point additive contribution function; the
trigonometric routines of numpy are likewise abstract function
parameters of the environment.  Python `assert` failures, `NameError`
and `AttributeError` are modelled with an explicit error type returned
in `Except`.
-/

namespace Fatiando

/-- Python-level errors that the orchestrator can raise.  The message of
an assertion is kept as the static template text of the source; the
interpolated values are elided. -/
inductive PyError
  | assertionError (msg : String)
  | nameError (msg : String)
  | attributeError (msg : String)
  | indexError (msg : String)
deriving DecidableEq, Repr

/-- The only backend compute module that is actually importable in the
source file: `_tesseroid_numba` (imported when the numba import
succeeds).  The name `_tesseroid_numpy` selected by the other branch of
`_get_engine` is never defined, so no constructor models it. -/
inductive EngineModule
  | numbaMod
deriving DecidableEq, Repr

/-- Modelled from the spec: gravitational constant `G` from the
`fatiando.constants` module (not under the sources).  Value
6.673e-11 in SI units. -/
def G : ℚ := 6673 / 100000000000000

/-- Modelled from the spec: SI to mGal conversion factor from
`fatiando.constants` (not under the sources); a mGal is 1e-5 m·s⁻²,
so the factor is 1e5. -/
def SI2MGAL : ℚ := 100000

/-- Modelled from the spec: SI to Eötvös conversion factor from
`fatiando.constants` (not under the sources); an Eötvös is 1e-9 s⁻²,
so the factor is 1e9. -/
def SI2EOTVOS : ℚ := 1000000000

/-- Modelled from the spec: mean Earth radius in metres from
`fatiando.constants` (not under the sources); used as `R_earth` in
`r = R_earth + height`. -/
def MEAN_EARTH_RADIUS : ℚ := 6378137

/-- Source constant `RATIO_V = 1`: default distance-size ratio for the
potential. -/
def RATIO_V : ℚ := 1

/-- Source constant `RATIO_G = 1.6`: default distance-size ratio for the
attraction components. -/
def RATIO_G : ℚ := 16 / 10

/-- Source constant `RATIO_GG = 8`: default distance-size ratio for the
gradient-tensor components. -/
def RATIO_GG : ℚ := 8

/-- Source constant `STACK_SIZE = 500`: capacity of the adaptive
subdivision stack, passed through to the backend. -/
def STACK_SIZE : Nat := 500

/-- A tesseroid record from `fatiando.mesher` (the container itself is
not under the sources; the orchestrator only reads its `props` dict,
modelled as an association list, and passes the record through to the
backend). -/
structure Tesseroid where
  w : ℚ
  e : ℚ
  s : ℚ
  n : ℚ
  bottom : ℚ
  top : ℚ
  props : List (String × ℚ)
deriving DecidableEq, Repr

/-- Python dict membership test `key in props` for the props
association list. -/
def propsLookup (props : List (String × ℚ)) (key : String) : Option ℚ :=
  match props.find? (fun p => p.1 == key) with
  | some p => some p.2
  | none => none

/-- Embedding of `_get_density(tesseroid, dens)`: `None` tesseroids and
tesseroids without a resolvable density yield `none`; an explicit `dens`
overrides the intrinsic property.  The Python `KeyError` branch of
`tesseroid.props[..]` is unreachable because the membership test has
already succeeded there. -/
def getDensity (tesseroid : Option Tesseroid) (dens : Option ℚ) : Option ℚ :=
  match tesseroid with
  | none => none
  | some t =>
    if (propsLookup t.props "density").isNone && dens.isNone then none
    else
      match dens with
      | some d => some d
      | none => propsLookup t.props "density"

/-- Embedding of `_get_engine(engine)`.  The flag `numbaOk` models
whether the guarded `import numba; from . import _tesseroid_numba`
at the top of the file succeeded.  The `numpy` branch assigns the name
`_tesseroid_numpy`, which is defined nowhere in the file, so Python
raises a `NameError` there; an explicit `numba` request with the import
failed likewise raises a `NameError` for `_tesseroid_numba`.  For a
selector outside the allowed list the `assert` message expression
`"...".fotmat(engine)` is evaluated first and raises an
`AttributeError` (the visible `fotmat` typo of the source), so the
`AssertionError` itself is never reached. -/
def getEngine (numbaOk : Bool) (engine : String) : Except PyError EngineModule :=
  let eng := if engine == "default" then (if numbaOk then "numba" else "numpy") else engine
  if eng == "numpy" || eng == "numba" then
    if eng == "numba" then
      if numbaOk then .ok .numbaMod
      else .error (.nameError "name _tesseroid_numba is not defined")
    else .error (.nameError "name _tesseroid_numpy is not defined")
  else .error (.attributeError "str object has no attribute fotmat")

/-- Embedding of `_check_input(lon, lat, height, model, ratio, njobs)`:
the three asserts in source order, then allocation of the zero result
buffer (`np.zeros_like(lon)`).  Arrays are one-dimensional, so a shape
is a length.  The `model` argument is accepted and ignored, as in the
source. -/
def check_input (lon lat height : List ℚ) (model : List (Option Tesseroid))
    (ratio : ℚ) (njobs : Int) : Except PyError (List ℚ) :=
  if ¬(lon.length = lat.length ∧ lat.length = height.length) then
    .error (.assertionError "Input coordinate arrays must have same shape")
  else if ¬(0 < ratio) then
    .error (.assertionError "Invalid ratio. Must be greater than 0.")
  else if ¬(0 < njobs) then
    .error (.assertionError "Invalid number of jobs. Must be greater than 0.")
  else .ok (List.replicate lon.length 0)

/-- Type of the backend per-field computation resolved by
`getattr(module, field)`: the field name selects the function; the
remaining arguments mirror
`func(lon, sinlat, coslat, radius, tesseroid, density, ratio,
STACK_SIZE, result)` at a single observation point, returning the
contribution added to that point's result cell. -/
def KernelT : Type :=
  String → ℚ → ℚ → ℚ → ℚ → Tesseroid → ℚ → ℚ → Nat → ℚ

/-- Environment of the embedding: the numpy trigonometric routines and
the backend contribution are abstract functions; `numbaOk` records
whether the numba import at module load succeeded. -/
structure Env where
  radiansQ : ℚ → ℚ
  sinQ : ℚ → ℚ
  cosQ : ℚ → ℚ
  kernel : KernelT
  numbaOk : Bool

/-- Modelled from the spec: one call
`func(lon, sinlat, coslat, radius, tesseroid, density, ratio,
STACK_SIZE, result)` of the backend module (not under the sources).
Per the spec the adaptive driver works per observation point and adds
its accumulated contribution into that point's result cell, so the call
updates `result` elementwise through the abstract per-point kernel. -/
def applyField (k : KernelT) (field : String) (t : Tesseroid)
    (density ratio : ℚ) :
    List ℚ → List ℚ → List ℚ → List ℚ → List ℚ → List ℚ
  | lo :: lons, sl :: sls, cl :: cls, ra :: ras, x :: xs =>
      (x + k field lo sl cl ra t density ratio STACK_SIZE) ::
        applyField k field t density ratio lons sls cls ras xs
  | _, _, _, _, _ => []

/-- One iteration of the `for tesseroid in model` loop of
`_dispatcher`: resolve the density, `continue` when it is `None`,
otherwise run the backend call on the result buffer. -/
def stepField (k : KernelT) (field : String) (dens : Option ℚ) (ratio : ℚ)
    (lons sls cls ras : List ℚ) (tess : Option Tesseroid) (res : List ℚ) :
    List ℚ :=
  match tess, getDensity tess dens with
  | some t, some density => applyField k field t density ratio lons sls cls ras res
  | _, _ => res

/-- The `for tesseroid in model` loop of `_dispatcher`. -/
def modelLoop (k : KernelT) (field : String) (dens : Option ℚ) (ratio : ℚ)
    (lons sls cls ras : List ℚ) :
    List (Option Tesseroid) → List ℚ → List ℚ
  | [], res => res
  | tess :: rest, res =>
      modelLoop k field dens ratio lons sls cls ras rest
        (stepField k field dens ratio lons sls cls ras tess res)

/-- Embedding of `_convert_coords(lon, lat, height)`: radians, sine and
cosine of latitude, and radius from height. -/
def convert_coords (env : Env) (lon lat height : List ℚ) :
    List ℚ × List ℚ × List ℚ × List ℚ :=
  let lonr := lon.map env.radiansQ
  let latr := lat.map env.radiansQ
  let sinlat := latr.map env.sinQ
  let coslat := latr.map env.cosQ
  let radius := height.map (fun h => MEAN_EARTH_RADIUS + h)
  (lonr, sinlat, coslat, radius)

/-- Embedding of `_dispatcher(args)`: coordinate conversion, engine
resolution, then the model loop accumulating into the result buffer. -/
def dispatcher (env : Env) (lon lat height result : List ℚ)
    (model : List (Option Tesseroid)) (dens : Option ℚ) (ratio : ℚ)
    (engine field : String) : Except PyError (List ℚ) :=
  let c := convert_coords env lon lat height
  match getEngine env.numbaOk engine with
  | .error err => .error err
  | .ok _ => .ok (modelLoop env.kernel field dens ratio c.1 c.2.1 c.2.2.1 c.2.2.2 model result)

/-- Embedding of the stride computation of `_split_arrays`:
`n = size // nparts`, `nparts - 1` strides of width `n`, then a final
stride from the end of the last one to `size`.  With `nparts <= 1` the
source raises (`IndexError` on `strides[-1]`, or `ZeroDivisionError`
earlier for `nparts = 0`), modelled by `none`. -/
def split_strides (size nparts : Nat) : Option (List (Nat × Nat)) :=
  match ((List.range (nparts - 1)).map
      (fun i => (i * (size / nparts), (i + 1) * (size / nparts)))).getLast? with
  | some last =>
      some ((List.range (nparts - 1)).map
        (fun i => (i * (size / nparts), (i + 1) * (size / nparts)))
        ++ [(last.2, size)])
  | none => none

/-- Python slice `x[low:high]` for `low <= high <= len(x)`. -/
def sliceL (x : List ℚ) (p : Nat × Nat) : List ℚ :=
  (x.drop p.1).take (p.2 - p.1)

/-- Embedding of `_split_arrays` applied, as in every call site, to the
four arrays `lon, lat, height, result`; the extra arguments appended to
each chunk by the source are passed directly to the dispatcher
instead. -/
def splitChunks (lon lat height result : List ℚ) (nparts : Nat) :
    Option (List (List ℚ × List ℚ × List ℚ × List ℚ)) :=
  (split_strides lon.length nparts).map
    (fun strides => strides.map
      (fun p => (sliceL lon p, sliceL lat p, sliceL height p, sliceL result p)))

/-- Common body of the ten public field functions: validate and allocate
via `check_input`, then either run the dispatcher directly
(`njobs == 1`) or split the four arrays into chunks, run the dispatcher
on every chunk and concatenate (`np.hstack` over `pool.map`), and
finally post-scale the result buffer once by `scale`
(`result *= scale`).  `ratioOpt = none` models an omitted `ratio`
argument, defaulted to `dfl` as in the Python signature. -/
def fieldTemplate (env : Env) (field : String) (scale dfl : ℚ)
    (lon lat height : List ℚ) (model : List (Option Tesseroid))
    (dens : Option ℚ) (ratioOpt : Option ℚ) (engine : String)
    (njobs : Int) : Except PyError (List ℚ) :=
  let rat := ratioOpt.getD dfl
  match check_input lon lat height model rat njobs with
  | .error err => .error err
  | .ok result =>
    if njobs = 1 then
      match dispatcher env lon lat height result model dens rat engine field with
      | .error err => .error err
      | .ok r => .ok (r.map (fun v => v * scale))
    else
      match splitChunks lon lat height result njobs.toNat with
      | none => .error (.indexError "list index out of range")
      | some chunks =>
        match chunks.mapM (fun c =>
            dispatcher env c.1 c.2.1 c.2.2.1 c.2.2.2 model dens rat engine field) with
        | .error err => .error err
        | .ok parts => .ok (parts.flatten.map (fun v => v * scale))

/-- Public function `potential`: field name `potential`, post-scale `G`,
default ratio `RATIO_V`. -/
def potential (env : Env) (lon lat height : List ℚ)
    (model : List (Option Tesseroid)) (dens : Option ℚ)
    (ratioOpt : Option ℚ) (engine : String) (njobs : Int) :
    Except PyError (List ℚ) :=
  fieldTemplate env "potential" G RATIO_V lon lat height model dens ratioOpt engine njobs

/-- Public function `gx`: post-scale `SI2MGAL * G`, default ratio
`RATIO_G`. -/
def gx (env : Env) (lon lat height : List ℚ)
    (model : List (Option Tesseroid)) (dens : Option ℚ)
    (ratioOpt : Option ℚ) (engine : String) (njobs : Int) :
    Except PyError (List ℚ) :=
  fieldTemplate env "gx" (SI2MGAL * G) RATIO_G lon lat height model dens ratioOpt engine njobs

/-- Public function `gy`: post-scale `SI2MGAL * G`, default ratio
`RATIO_G`. -/
def gy (env : Env) (lon lat height : List ℚ)
    (model : List (Option Tesseroid)) (dens : Option ℚ)
    (ratioOpt : Option ℚ) (engine : String) (njobs : Int) :
    Except PyError (List ℚ) :=
  fieldTemplate env "gy" (SI2MGAL * G) RATIO_G lon lat height model dens ratioOpt engine njobs

/-- Public function `gz`: post-scale `SI2MGAL * G`, default ratio
`RATIO_G`.  The z-down sign convention of this component lives in the
backend kernel, not here. -/
def gz (env : Env) (lon lat height : List ℚ)
    (model : List (Option Tesseroid)) (dens : Option ℚ)
    (ratioOpt : Option ℚ) (engine : String) (njobs : Int) :
    Except PyError (List ℚ) :=
  fieldTemplate env "gz" (SI2MGAL * G) RATIO_G lon lat height model dens ratioOpt engine njobs

/-- Public function `gxx`: post-scale `SI2EOTVOS * G`, default ratio
`RATIO_GG`. -/
def gxx (env : Env) (lon lat height : List ℚ)
    (model : List (Option Tesseroid)) (dens : Option ℚ)
    (ratioOpt : Option ℚ) (engine : String) (njobs : Int) :
    Except PyError (List ℚ) :=
  fieldTemplate env "gxx" (SI2EOTVOS * G) RATIO_GG lon lat height model dens ratioOpt engine njobs

/-- Public function `gxy`: post-scale `SI2EOTVOS * G`, default ratio
`RATIO_GG`. -/
def gxy (env : Env) (lon lat height : List ℚ)
    (model : List (Option Tesseroid)) (dens : Option ℚ)
    (ratioOpt : Option ℚ) (engine : String) (njobs : Int) :
    Except PyError (List ℚ) :=
  fieldTemplate env "gxy" (SI2EOTVOS * G) RATIO_GG lon lat height model dens ratioOpt engine njobs

/-- Public function `gxz`: post-scale `SI2EOTVOS * G`, default ratio
`RATIO_GG`. -/
def gxz (env : Env) (lon lat height : List ℚ)
    (model : List (Option Tesseroid)) (dens : Option ℚ)
    (ratioOpt : Option ℚ) (engine : String) (njobs : Int) :
    Except PyError (List ℚ) :=
  fieldTemplate env "gxz" (SI2EOTVOS * G) RATIO_GG lon lat height model dens ratioOpt engine njobs

/-- Public function `gyy`: post-scale `SI2EOTVOS * G`, default ratio
`RATIO_GG`. -/
def gyy (env : Env) (lon lat height : List ℚ)
    (model : List (Option Tesseroid)) (dens : Option ℚ)
    (ratioOpt : Option ℚ) (engine : String) (njobs : Int) :
    Except PyError (List ℚ) :=
  fieldTemplate env "gyy" (SI2EOTVOS * G) RATIO_GG lon lat height model dens ratioOpt engine njobs

/-- Public function `gyz`: post-scale `SI2EOTVOS * G`, default ratio
`RATIO_GG`. -/
def gyz (env : Env) (lon lat height : List ℚ)
    (model : List (Option Tesseroid)) (dens : Option ℚ)
    (ratioOpt : Option ℚ) (engine : String) (njobs : Int) :
    Except PyError (List ℚ) :=
  fieldTemplate env "gyz" (SI2EOTVOS * G) RATIO_GG lon lat height model dens ratioOpt engine njobs

/-- Public function `gzz`: post-scale `SI2EOTVOS * G`, default ratio
`RATIO_GG`. -/
def gzz (env : Env) (lon lat height : List ℚ)
    (model : List (Option Tesseroid)) (dens : Option ℚ)
    (ratioOpt : Option ℚ) (engine : String) (njobs : Int) :
    Except PyError (List ℚ) :=
  fieldTemplate env "gzz" (SI2EOTVOS * G) RATIO_GG lon lat height model dens ratioOpt engine njobs

/-- One model element's effect on a single result cell `x`: the
per-point view of one `stepField` iteration. -/
def stepPoint (k : KernelT) (field : String) (dens : Option ℚ)
    (ratio : ℚ) (lo sl cl ra : ℚ) (tess : Option Tesseroid) (x : ℚ) : ℚ :=
  match tess, getDensity tess dens with
  | some t, some density => x + k field lo sl cl ra t density ratio STACK_SIZE
  | _, _ => x

/-- The accumulated contribution of the whole model at one observation
point: the per-point view of the `for tesseroid in model` loop,
starting from the point's current result cell `x`. -/
def pointContrib (k : KernelT) (field : String) (dens : Option ℚ)
    (ratio : ℚ) (lo sl cl ra : ℚ) :
    List (Option Tesseroid) → ℚ → ℚ
  | [], x => x
  | tess :: rest, x =>
      pointContrib k field dens ratio lo sl cl ra rest
        (stepPoint k field dens ratio lo sl cl ra tess x)

/-- The value the dispatcher computes for one observation point
`(lo, la, h)` whose result cell currently holds `x`: coordinate
conversion followed by the model accumulation. -/
def pointAt (env : Env) (field : String) (model : List (Option Tesseroid))
    (dens : Option ℚ) (ratio : ℚ) (lo la h x : ℚ) : ℚ :=
  pointContrib env.kernel field dens ratio (env.radiansQ lo)
    (env.sinQ (env.radiansQ la)) (env.cosQ (env.radiansQ la))
    (MEAN_EARTH_RADIUS + h) model x

/-- Four-list pointwise map, truncating at the shortest list. -/
def zipWith4 (f : ℚ → ℚ → ℚ → ℚ → ℚ) :
    List ℚ → List ℚ → List ℚ → List ℚ → List ℚ
  | a :: as, b :: bs, c :: cs, d :: ds =>
      f a b c d :: zipWith4 f as bs cs ds
  | _, _, _, _ => []

/-- The ten public field functions of the module, in source order. -/
def allFieldCalls :
    List (Env → List ℚ → List ℚ → List ℚ → List (Option Tesseroid) →
      Option ℚ → Option ℚ → String → Int → Except PyError (List ℚ)) :=
  [potential, gx, gy, gz, gxx, gxy, gxz, gyy, gyz, gzz]

/-- A concrete environment for evaluating the embedding on closed
inputs: identity stand-ins for the trigonometric routines, a simple
concrete kernel, and a successful numba import. -/
def envC : Env where
  radiansQ := fun x => x
  sinQ := fun x => x
  cosQ := fun x => x
  kernel := fun _ lo _ _ _ _ density _ _ => density * lo
  numbaOk := true

/-- A concrete tesseroid carrying a density property. -/
def tessC : Tesseroid where
  w := -1
  e := 1
  s := -1
  n := 1
  bottom := 6368137
  top := 6378137
  props := [("density", 2670)]

/-- A concrete tesseroid with no density property. -/
def tessND : Tesseroid where
  w := -1
  e := 1
  s := -1
  n := 1
  bottom := 6368137
  top := 6378137
  props := []

/-- A store of numpy arrays: an allocation id is a position in the
store.  Used to express which buffers a call allocates and writes. -/
structure Heap where
  arrays : List (List ℚ)
deriving Repr

/-- Read the array held at id `i` (empty for a dangling id). -/
def readA (h : Heap) (i : Nat) : List ℚ := h.arrays.getD i []

/-- Allocate a fresh array holding `v`; returns the new store and the
fresh id. -/
def allocA (h : Heap) (v : List ℚ) : Heap × Nat :=
  (⟨h.arrays ++ [v]⟩, h.arrays.length)

/-- Overwrite the array at id `i` in place. -/
def writeA (h : Heap) (i : Nat) (v : List ℚ) : Heap :=
  ⟨h.arrays.set i v⟩

/-- Heap-level body of one `for tesseroid in model` iteration of
`_dispatcher`: the only store mutation is the backend call writing into
the result buffer `resId`. -/
def heapStep (k : KernelT) (field : String) (dens : Option ℚ)
    (rat : ℚ) (lonrId slId clId radId resId : Nat)
    (tess : Option Tesseroid) (hh : Heap) : Heap :=
  match tess, getDensity tess dens with
  | some t, some density =>
      writeA hh resId
        (applyField k field t density rat (readA hh lonrId)
          (readA hh slId) (readA hh clId) (readA hh radId)
          (readA hh resId))
  | _, _ => hh

/-- Heap-level `for tesseroid in model` loop of `_dispatcher`. -/
def heapModelLoop (k : KernelT) (field : String) (dens : Option ℚ)
    (rat : ℚ) (lonrId slId clId radId resId : Nat) :
    List (Option Tesseroid) → Heap → Heap
  | [], hh => hh
  | tess :: rest, hh =>
      heapModelLoop k field dens rat lonrId slId clId radId resId rest
        (heapStep k field dens rat lonrId slId clId radId resId tess hh)

/-- Heap-level embedding of one public field call with `njobs = 1`
(the `njobs > 0` assert is vacuous there and elided, and the engine
lookup — which touches no arrays — is hoisted before the allocations so
that an error carries no store): validation, allocation of the zeroed
result (`np.zeros_like`), the four fresh arrays of `_convert_coords`
(`np.radians` twice, `np.sin`, `np.cos`, the radius sum), the
dispatcher loop, and the final in-place `result *= scale`.  The
observation arrays enter as store ids, read once as in the source,
where the function receives the array objects themselves; the returned
id is the result buffer. -/
def heapFieldNjobs1 (env : Env) (field : String) (scale dfl : ℚ)
    (h0 : Heap) (lonId latId heightId : Nat)
    (model : List (Option Tesseroid)) (dens : Option ℚ)
    (ratioOpt : Option ℚ) (engine : String) :
    Except PyError (Heap × Nat) :=
  if ¬((readA h0 lonId).length = (readA h0 latId).length ∧
       (readA h0 latId).length = (readA h0 heightId).length) then
    .error (.assertionError "Input coordinate arrays must have same shape")
  else if ¬(0 < ratioOpt.getD dfl) then
    .error (.assertionError "Invalid ratio. Must be greater than 0.")
  else
    match getEngine env.numbaOk engine with
    | .error err => .error err
    | .ok _ =>
      let a1 := allocA h0 (List.replicate (readA h0 lonId).length 0)
      let a2 := allocA a1.1 ((readA h0 lonId).map env.radiansQ)
      let a3 := allocA a2.1 ((readA h0 latId).map env.radiansQ)
      let a4 := allocA a3.1 ((readA a3.1 a3.2).map env.sinQ)
      let a5 := allocA a4.1 ((readA a4.1 a3.2).map env.cosQ)
      let a6 := allocA a5.1
        ((readA h0 heightId).map (fun x => MEAN_EARTH_RADIUS + x))
      let h7 := heapModelLoop env.kernel field dens (ratioOpt.getD dfl)
        a2.2 a4.2 a5.2 a6.2 a1.2 model a6.1
      .ok (writeA h7 a1.2 ((readA h7 a1.2).map (fun v => v * scale)), a1.2)

/-- A concrete three-array store for evaluating the heap embedding. -/
def heapC : Heap := ⟨[[1], [2], [3]]⟩

section Lemmas

/-- A backend call on an empty result buffer leaves it empty. -/
lemma applyField_res_nil (k : KernelT) (field : String) (t : Tesseroid)
    (density rat : ℚ) (lons sls cls ras : List ℚ) :
    applyField k field t density rat lons sls cls ras [] = [] := by
  cases lons <;> cases sls <;> cases cls <;> cases ras <;> rfl

/-- A loop iteration on an empty result buffer leaves it empty. -/
lemma stepField_res_nil (k : KernelT) (field : String) (dens : Option ℚ)
    (rat : ℚ) (lons sls cls ras : List ℚ) (tess : Option Tesseroid) :
    stepField k field dens rat lons sls cls ras tess [] = [] := by
  unfold stepField
  cases tess with
  | none => rfl
  | some t =>
    cases getDensity (some t) dens with
    | none => rfl
    | some density => exact applyField_res_nil ..

/-- The whole model loop on an empty result buffer leaves it empty. -/
lemma modelLoop_res_nil (k : KernelT) (field : String) (dens : Option ℚ)
    (rat : ℚ) (lons sls cls ras : List ℚ) (model : List (Option Tesseroid)) :
    modelLoop k field dens rat lons sls cls ras model [] = [] := by
  induction model with
  | nil => rfl
  | cons tess rest ih =>
    show modelLoop k field dens rat lons sls cls ras rest
      (stepField k field dens rat lons sls cls ras tess []) = []
    rw [stepField_res_nil]
    exact ih

/-- A loop iteration acts pointwise on the result buffer. -/
lemma stepField_cons (k : KernelT) (field : String) (dens : Option ℚ)
    (rat : ℚ) (lo sl cl ra : ℚ) (lons sls cls ras : List ℚ)
    (tess : Option Tesseroid) (x : ℚ) (xs : List ℚ) :
    stepField k field dens rat (lo :: lons) (sl :: sls) (cl :: cls)
        (ra :: ras) tess (x :: xs)
      = stepPoint k field dens rat lo sl cl ra tess x ::
          stepField k field dens rat lons sls cls ras tess xs := by
  unfold stepField stepPoint
  cases tess with
  | none => rfl
  | some t =>
    cases getDensity (some t) dens with
    | none => rfl
    | some density => rfl

/-- The model loop acts pointwise on the result buffer. -/
lemma modelLoop_cons (k : KernelT) (field : String) (dens : Option ℚ)
    (rat : ℚ) (lo sl cl ra : ℚ) (lons sls cls ras : List ℚ)
    (model : List (Option Tesseroid)) (x : ℚ) (xs : List ℚ) :
    modelLoop k field dens rat (lo :: lons) (sl :: sls) (cl :: cls)
        (ra :: ras) model (x :: xs)
      = pointContrib k field dens rat lo sl cl ra model x ::
          modelLoop k field dens rat lons sls cls ras model xs := by
  induction model generalizing x xs with
  | nil => rfl
  | cons tess rest ih =>
    show modelLoop k field dens rat (lo :: lons) (sl :: sls) (cl :: cls)
        (ra :: ras) rest
        (stepField k field dens rat (lo :: lons) (sl :: sls) (cl :: cls)
          (ra :: ras) tess (x :: xs)) = _
    rw [stepField_cons, ih]
    rfl

/-- The dispatcher loop, run on the converted coordinate arrays,
computes `pointContrib` independently at every observation point. -/
lemma modelLoop_zipWith4 (k : KernelT) (field : String) (dens : Option ℚ)
    (rat : ℚ) (fr fs fc : ℚ → ℚ) (model : List (Option Tesseroid)) :
    ∀ (lon lat height res : List ℚ),
      lat.length = lon.length → height.length = lon.length →
      res.length = lon.length →
      modelLoop k field dens rat (lon.map fr) ((lat.map fr).map fs)
          ((lat.map fr).map fc)
          (height.map (fun h => MEAN_EARTH_RADIUS + h)) model res
        = zipWith4 (fun lo la h x =>
            pointContrib k field dens rat (fr lo) (fs (fr la)) (fc (fr la))
              (MEAN_EARTH_RADIUS + h) model x) lon lat height res := by
  intro lon
  induction lon with
  | nil =>
    intro lat height res hla hh hre
    rw [List.length_nil, List.length_eq_zero] at hla hh hre
    subst hla; subst hh; subst hre
    exact modelLoop_res_nil ..
  | cons lo lons ih =>
    intro lat height res hla hh hre
    cases lat with
    | nil => simp at hla
    | cons la lats =>
      cases height with
      | nil => simp at hh
      | cons h hs =>
        cases res with
        | nil => simp at hre
        | cons x xs =>
          simp only [List.map_cons]
          rw [modelLoop_cons]
          simp only [List.length_cons, Nat.succ_inj] at hla hh hre
          rw [ih lats hs xs hla hh hre]
          rfl

/-- Lengths of a `zipWith4` over equal-length lists. -/
lemma zipWith4_length (f : ℚ → ℚ → ℚ → ℚ → ℚ) :
    ∀ (as bs cs ds : List ℚ),
      bs.length = as.length → cs.length = as.length →
      ds.length = as.length → (zipWith4 f as bs cs ds).length = as.length := by
  intro as
  induction as with
  | nil =>
    intro bs cs ds hb hc hd
    rw [List.length_nil, List.length_eq_zero] at hb hc hd
    subst hb; subst hc; subst hd; rfl
  | cons a as ih =>
    intro bs cs ds hb hc hd
    cases bs with
    | nil => simp at hb
    | cons b bs =>
      cases cs with
      | nil => simp at hc
      | cons c cs =>
        cases ds with
        | nil => simp at hd
        | cons d ds =>
          simp only [List.length_cons, Nat.succ_inj] at hb hc hd
          simp only [zipWith4, List.length_cons, ih bs cs ds hb hc hd]

/-- `zipWith4` commutes with `take` applied uniformly to the inputs. -/
lemma zipWith4_take (f : ℚ → ℚ → ℚ → ℚ → ℚ) :
    ∀ (n : Nat) (as bs cs ds : List ℚ),
      zipWith4 f (as.take n) (bs.take n) (cs.take n) (ds.take n)
        = (zipWith4 f as bs cs ds).take n := by
  intro n
  induction n with
  | zero => intro as bs cs ds; cases as <;> cases bs <;> cases cs <;> cases ds <;> rfl
  | succ n ih =>
    intro as bs cs ds
    cases as <;> cases bs <;> cases cs <;> cases ds <;>
      simp [zipWith4, List.take_succ_cons, ih]

/-- `zipWith4` commutes with `drop` applied uniformly to the inputs. -/
lemma zipWith4_drop (f : ℚ → ℚ → ℚ → ℚ → ℚ) :
    ∀ (n : Nat) (as bs cs ds : List ℚ),
      zipWith4 f (as.drop n) (bs.drop n) (cs.drop n) (ds.drop n)
        = (zipWith4 f as bs cs ds).drop n := by
  intro n
  induction n with
  | zero => intro as bs cs ds; rfl
  | succ n ih =>
    intro as bs cs ds
    cases as <;> cases bs <;> cases cs <;> cases ds <;>
      simp [zipWith4, List.drop_succ_cons, ih]

/-- `zipWith4` commutes with taking a common slice of the inputs. -/
lemma zipWith4_sliceL (f : ℚ → ℚ → ℚ → ℚ → ℚ) (p : Nat × Nat)
    (as bs cs ds : List ℚ) :
    zipWith4 f (sliceL as p) (sliceL bs p) (sliceL cs p) (sliceL ds p)
      = sliceL (zipWith4 f as bs cs ds) p := by
  unfold sliceL
  rw [zipWith4_take, zipWith4_drop]

/-- Concatenating the `k` leading width-`n` slices recovers the prefix
of length `k * n`. -/
lemma flatten_slices_range (x : List ℚ) (n : Nat) :
    ∀ k : Nat,
      ((((List.range k).map (fun i => (i * n, (i + 1) * n))).map
          (sliceL x)).flatten)
        = x.take (k * n) := by
  intro k
  induction k with
  | zero => simp
  | succ k ih =>
    rw [List.range_succ, List.map_append, List.map_append,
      List.flatten_append, ih]
    have harith : (k + 1) * n - k * n = n := by
      rw [Nat.succ_mul]; omega
    have hslice : sliceL x (k * n, (k + 1) * n) = (x.drop (k * n)).take n := by
      unfold sliceL; rw [harith]
    rw [List.map_singleton, List.map_singleton, List.flatten_singleton,
      hslice, Nat.succ_mul, List.take_add]

/-- For `nparts >= 2`, the stride computation of `_split_arrays`
succeeds and yields the explicit stride list. -/
lemma split_strides_eq (size : Nat) {nparts : Nat} (h : 2 ≤ nparts) :
    split_strides size nparts
      = some (((List.range (nparts - 1)).map
          (fun i => (i * (size / nparts), (i + 1) * (size / nparts))))
          ++ [((nparts - 1) * (size / nparts), size)]) := by
  obtain ⟨m, rfl⟩ : ∃ m, nparts = m + 2 := ⟨nparts - 2, by omega⟩
  unfold split_strides
  have hrange : List.range (m + 2 - 1) = List.range m ++ [m] := by
    have heq : m + 2 - 1 = m + 1 := by omega
    rw [heq, List.range_succ]
  rw [hrange, List.map_append, List.map_singleton, List.getLast?_concat]
  have heq2 : (m + 1) * (size / (m + 2)) = (m + 2 - 1) * (size / (m + 2)) := by
    congr 1
  rw [heq2]

/-- Joining the slices given by the strides recovers the whole list. -/
lemma flatten_slices (x : List ℚ) {nparts : Nat} (h : 2 ≤ nparts)
    (strides : List (Nat × Nat))
    (hs : split_strides x.length nparts = some strides) :
    (strides.map (sliceL x)).flatten = x := by
  rw [split_strides_eq x.length h] at hs
  injection hs with hs
  subst hs
  rw [List.map_append, List.flatten_append, List.map_singleton,
    List.flatten_singleton, flatten_slices_range]
  have hlast : sliceL x ((nparts - 1) * (x.length / nparts), x.length)
      = x.drop ((nparts - 1) * (x.length / nparts)) := by
    unfold sliceL
    apply List.take_of_length_le
    rw [List.length_drop]
  rw [hlast, List.take_append_drop]

/-- `mapM` over `Except` of a function that succeeds on every element
is the successful `map`. -/
lemma mapM_ok {α β : Type} (f : α → Except PyError β) (g : α → β) :
    ∀ l : List α, (∀ c ∈ l, f c = .ok (g c)) →
      l.mapM f = Except.ok (l.map g) := by
  intro l
  induction l with
  | nil => intro _; rfl
  | cons a l ih =>
    intro hall
    rw [List.mapM_cons, hall a (List.mem_cons_self a l)]
    have := ih (fun c hc => hall c (List.mem_cons_of_mem a hc))
    simp only [List.map_cons]
    rw [show (l.mapM f) = Except.ok (l.map g) from this]
    rfl

/-- Slices at a common stride of equal-length lists have equal
lengths. -/
lemma sliceL_length_eq {as bs : List ℚ} (h : bs.length = as.length)
    (p : Nat × Nat) : (sliceL bs p).length = (sliceL as p).length := by
  simp [sliceL, List.length_take, List.length_drop, h]

/-- When the engine resolves, `_dispatcher` computes every observation
point independently: its result is the pointwise `pointAt` map over the
coordinate and result arrays. -/
lemma dispatcher_ok (env : Env) (lon lat height res : List ℚ)
    (model : List (Option Tesseroid)) (dens : Option ℚ) (rat : ℚ)
    (engine field : String) (m : EngineModule)
    (he : getEngine env.numbaOk engine = .ok m)
    (hla : lat.length = lon.length) (hh : height.length = lon.length)
    (hre : res.length = lon.length) :
    dispatcher env lon lat height res model dens rat engine field
      = .ok (zipWith4 (pointAt env field model dens rat) lon lat height res) := by
  have hml := modelLoop_zipWith4 env.kernel field dens rat env.radiansQ
    env.sinQ env.cosQ model lon lat height res hla hh hre
  unfold dispatcher convert_coords
  rw [he]
  exact congrArg Except.ok hml

/-- When the engine fails to resolve, `_dispatcher` raises that error
whatever the arrays and the model are. -/
lemma dispatcher_err (env : Env) (lon lat height res : List ℚ)
    (model : List (Option Tesseroid)) (dens : Option ℚ) (rat : ℚ)
    (engine field : String) (err : PyError)
    (he : getEngine env.numbaOk engine = .error err) :
    dispatcher env lon lat height res model dens rat engine field
      = .error err := by
  unfold dispatcher convert_coords
  rw [he]

/-- Central characterisation of the ten public functions: on valid
input with a resolvable engine, the call succeeds and returns the
per-point accumulation over a zeroed buffer, post-scaled once by
`scale` — for every `njobs >= 1`. -/
lemma fieldTemplate_ok (env : Env) (field : String) (scale dfl : ℚ)
    (lon lat height : List ℚ) (model : List (Option Tesseroid))
    (dens : Option ℚ) (ratioOpt : Option ℚ) (engine : String)
    (njobs : Int) (m : EngineModule)
    (hla : lat.length = lon.length) (hh : height.length = lon.length)
    (hr : 0 < ratioOpt.getD dfl) (hn : 1 ≤ njobs)
    (he : getEngine env.numbaOk engine = .ok m) :
    fieldTemplate env field scale dfl lon lat height model dens ratioOpt
        engine njobs
      = .ok ((zipWith4 (pointAt env field model dens (ratioOpt.getD dfl))
          lon lat height (List.replicate lon.length 0)).map
            (fun v => v * scale)) := by
  have hchk : check_input lon lat height model (ratioOpt.getD dfl) njobs
      = .ok (List.replicate lon.length 0) := by
    unfold check_input
    rw [if_neg (not_not_intro ⟨hla.symm, by omega⟩),
      if_neg (not_not_intro hr),
      if_neg (not_not_intro (by omega : (0:Int) < njobs))]
  unfold fieldTemplate
  simp only [hchk]
  by_cases hj : njobs = 1
  · rw [if_pos hj,
      dispatcher_ok env lon lat height _ model dens _ engine field m he
        hla hh (by rw [List.length_replicate])]
  · rw [if_neg hj]
    have h2 : 2 ≤ njobs.toNat := by omega
    obtain ⟨strides0, hss⟩ : ∃ s, split_strides lon.length njobs.toNat = some s :=
      ⟨_, split_strides_eq lon.length h2⟩
    have hsc : splitChunks lon lat height (List.replicate lon.length 0)
        njobs.toNat
        = some (strides0.map (fun p =>
            (sliceL lon p, sliceL lat p, sliceL height p,
             sliceL (List.replicate lon.length 0) p))) := by
      unfold splitChunks
      rw [hss]
      rfl
    simp only [hsc]
    have hre : (List.replicate lon.length (0:ℚ)).length = lon.length :=
      List.length_replicate ..
    have hmapM : (strides0.map (fun p =>
        (sliceL lon p, sliceL lat p, sliceL height p,
         sliceL (List.replicate lon.length 0) p))).mapM
          (fun c => dispatcher env c.1 c.2.1 c.2.2.1 c.2.2.2 model dens
            (ratioOpt.getD dfl) engine field)
        = Except.ok ((strides0.map (fun p =>
            (sliceL lon p, sliceL lat p, sliceL height p,
             sliceL (List.replicate lon.length 0) p))).map
          (fun c => zipWith4 (pointAt env field model dens (ratioOpt.getD dfl))
            c.1 c.2.1 c.2.2.1 c.2.2.2)) := by
      apply mapM_ok
      intro c hc
      obtain ⟨p, _, rfl⟩ := List.mem_map.mp hc
      exact dispatcher_ok env _ _ _ _ model dens _ engine field m he
        (sliceL_length_eq hla p) (sliceL_length_eq hh p)
        (sliceL_length_eq hre p)
    simp only [hmapM]
    congr 1
    have hfull : (strides0.map (fun p =>
        (sliceL lon p, sliceL lat p, sliceL height p,
         sliceL (List.replicate lon.length 0) p))).map
          (fun c => zipWith4 (pointAt env field model dens (ratioOpt.getD dfl))
            c.1 c.2.1 c.2.2.1 c.2.2.2)
        = strides0.map (sliceL (zipWith4
            (pointAt env field model dens (ratioOpt.getD dfl))
            lon lat height (List.replicate lon.length 0))) := by
      rw [List.map_map]
      apply List.map_congr_left
      intro p _
      exact zipWith4_sliceL ..
    rw [hfull]
    have hlen : (zipWith4 (pointAt env field model dens (ratioOpt.getD dfl))
        lon lat height (List.replicate lon.length 0)).length = lon.length :=
      zipWith4_length _ lon lat height _ hla hh hre
    rw [flatten_slices _ h2 strides0 (by rw [hlen]; exact hss)]

/-- A field call with post-scale `scale` is the unscaled call with the
whole result buffer multiplied once by `scale` — on every path,
including the multi-job one, and errors pass through unchanged. -/
lemma fieldTemplate_scale (env : Env) (field : String) (scale dfl : ℚ)
    (lon lat height : List ℚ) (model : List (Option Tesseroid))
    (dens : Option ℚ) (ratioOpt : Option ℚ) (engine : String)
    (njobs : Int) :
    fieldTemplate env field scale dfl lon lat height model dens ratioOpt
        engine njobs
      = Except.map (List.map (fun v => v * scale))
          (fieldTemplate env field 1 dfl lon lat height model dens ratioOpt
            engine njobs) := by
  unfold fieldTemplate
  cases hchk : check_input lon lat height model (ratioOpt.getD dfl) njobs with
  | error e => simp only [hchk, Except.map]
  | ok result =>
    simp only [hchk]
    by_cases hj : njobs = 1
    · rw [if_pos hj, if_pos hj]
      cases hd : dispatcher env lon lat height result model dens
          (ratioOpt.getD dfl) engine field with
      | error e => simp only [hd, Except.map]
      | ok r =>
        simp only [hd, Except.map]
        rw [List.map_map]
        congr 1
        exact List.map_congr_left (fun v _ => by simp [Function.comp, mul_one])
    · rw [if_neg hj, if_neg hj]
      cases hsc : splitChunks lon lat height result njobs.toNat with
      | none => simp only [hsc, Except.map]
      | some chunks =>
        simp only [hsc]
        cases hmm : chunks.mapM (fun c =>
            dispatcher env c.1 c.2.1 c.2.2.1 c.2.2.2 model dens
              (ratioOpt.getD dfl) engine field) with
        | error e => simp only [hmm, Except.map]
        | ok parts =>
          simp only [hmm, Except.map]
          rw [List.map_map]
          congr 1
          exact List.map_congr_left (fun v _ => by simp [Function.comp, mul_one])

end Lemmas

section Claims

/-- C1: for every call, the result buffer is post-scaled exactly once
by field — `potential` multiplies the accumulated buffer by `G` only,
`gx`, `gy` and `gz` multiply it by `SI2MGAL * G`, and the six tensor
components multiply it by `SI2EOTVOS * G`; in particular the
post-scaling factor of `gz` is the same positive factor as that of
`gx` and `gy`, so no z-down sign flip is applied in post-scaling. -/
theorem postscale_once_per_field (env : Env) (lon lat height : List ℚ)
    (model : List (Option Tesseroid)) (dens : Option ℚ)
    (ratioOpt : Option ℚ) (engine : String) (njobs : Int) :
    potential env lon lat height model dens ratioOpt engine njobs
      = Except.map (List.map (fun v => v * G))
        (fieldTemplate env "potential" 1 RATIO_V lon lat height model dens
          ratioOpt engine njobs)
    ∧ gx env lon lat height model dens ratioOpt engine njobs
      = Except.map (List.map (fun v => v * (SI2MGAL * G)))
        (fieldTemplate env "gx" 1 RATIO_G lon lat height model dens
          ratioOpt engine njobs)
    ∧ gy env lon lat height model dens ratioOpt engine njobs
      = Except.map (List.map (fun v => v * (SI2MGAL * G)))
        (fieldTemplate env "gy" 1 RATIO_G lon lat height model dens
          ratioOpt engine njobs)
    ∧ gz env lon lat height model dens ratioOpt engine njobs
      = Except.map (List.map (fun v => v * (SI2MGAL * G)))
        (fieldTemplate env "gz" 1 RATIO_G lon lat height model dens
          ratioOpt engine njobs)
    ∧ gxx env lon lat height model dens ratioOpt engine njobs
      = Except.map (List.map (fun v => v * (SI2EOTVOS * G)))
        (fieldTemplate env "gxx" 1 RATIO_GG lon lat height model dens
          ratioOpt engine njobs)
    ∧ gxy env lon lat height model dens ratioOpt engine njobs
      = Except.map (List.map (fun v => v * (SI2EOTVOS * G)))
        (fieldTemplate env "gxy" 1 RATIO_GG lon lat height model dens
          ratioOpt engine njobs)
    ∧ gxz env lon lat height model dens ratioOpt engine njobs
      = Except.map (List.map (fun v => v * (SI2EOTVOS * G)))
        (fieldTemplate env "gxz" 1 RATIO_GG lon lat height model dens
          ratioOpt engine njobs)
    ∧ gyy env lon lat height model dens ratioOpt engine njobs
      = Except.map (List.map (fun v => v * (SI2EOTVOS * G)))
        (fieldTemplate env "gyy" 1 RATIO_GG lon lat height model dens
          ratioOpt engine njobs)
    ∧ gyz env lon lat height model dens ratioOpt engine njobs
      = Except.map (List.map (fun v => v * (SI2EOTVOS * G)))
        (fieldTemplate env "gyz" 1 RATIO_GG lon lat height model dens
          ratioOpt engine njobs)
    ∧ gzz env lon lat height model dens ratioOpt engine njobs
      = Except.map (List.map (fun v => v * (SI2EOTVOS * G)))
        (fieldTemplate env "gzz" 1 RATIO_GG lon lat height model dens
          ratioOpt engine njobs)
    ∧ (0:ℚ) < G ∧ (0:ℚ) < SI2MGAL * G ∧ (0:ℚ) < SI2EOTVOS * G :=
  ⟨fieldTemplate_scale .., fieldTemplate_scale .., fieldTemplate_scale ..,
   fieldTemplate_scale .., fieldTemplate_scale .., fieldTemplate_scale ..,
   fieldTemplate_scale .., fieldTemplate_scale .., fieldTemplate_scale ..,
   fieldTemplate_scale ..,
   by norm_num [G], by norm_num [SI2MGAL, G], by norm_num [SI2EOTVOS, G]⟩

/-- C6: when the caller omits `ratio`, the default used is
field-dependent — `RATIO_V = 1` for the potential, `RATIO_G = 1.6` for
the attraction components, `RATIO_GG = 8` for the gradient-tensor
components. -/
theorem ratio_defaults_per_field :
    RATIO_V = 1 ∧ RATIO_G = 16 / 10 ∧ RATIO_GG = 8 ∧
    ∀ (env : Env) (lon lat height : List ℚ)
      (model : List (Option Tesseroid)) (dens : Option ℚ)
      (engine : String) (njobs : Int),
      potential env lon lat height model dens none engine njobs
        = potential env lon lat height model dens (some RATIO_V) engine njobs
      ∧ gx env lon lat height model dens none engine njobs
        = gx env lon lat height model dens (some RATIO_G) engine njobs
      ∧ gy env lon lat height model dens none engine njobs
        = gy env lon lat height model dens (some RATIO_G) engine njobs
      ∧ gz env lon lat height model dens none engine njobs
        = gz env lon lat height model dens (some RATIO_G) engine njobs
      ∧ gxx env lon lat height model dens none engine njobs
        = gxx env lon lat height model dens (some RATIO_GG) engine njobs
      ∧ gxy env lon lat height model dens none engine njobs
        = gxy env lon lat height model dens (some RATIO_GG) engine njobs
      ∧ gxz env lon lat height model dens none engine njobs
        = gxz env lon lat height model dens (some RATIO_GG) engine njobs
      ∧ gyy env lon lat height model dens none engine njobs
        = gyy env lon lat height model dens (some RATIO_GG) engine njobs
      ∧ gyz env lon lat height model dens none engine njobs
        = gyz env lon lat height model dens (some RATIO_GG) engine njobs
      ∧ gzz env lon lat height model dens none engine njobs
        = gzz env lon lat height model dens (some RATIO_GG) engine njobs :=
  ⟨rfl, rfl, rfl, fun _ _ _ _ _ _ _ _ =>
    ⟨rfl, rfl, rfl, rfl, rfl, rfl, rfl, rfl, rfl, rfl⟩⟩

/-- C8: with an explicit `dens`, the density handed to the backend is
`dens` for every non-null tesseroid — whatever its props, including
tesseroids lacking the density property — and null model elements are
still skipped. -/
theorem density_override (t : Tesseroid) (d : ℚ) :
    getDensity (some t) (some d) = some d
    ∧ getDensity none (some d) = none := by
  constructor
  · unfold getDensity
    simp
  · rfl

/-- C9: the `numpy` branch of `_get_engine` selects the name
`_tesseroid_numpy`, which is defined nowhere in the file, so an
explicit numpy request — and a default request when the numba import
failed — raises a `NameError`; the pure-python backend path is
unreachable without error. -/
theorem numpy_engine_unreachable :
    (∀ b : Bool, getEngine b "numpy"
      = .error (.nameError "name _tesseroid_numpy is not defined"))
    ∧ getEngine false "default"
      = .error (.nameError "name _tesseroid_numpy is not defined") :=
  ⟨fun _ => rfl, rfl⟩

/-- C4 (code bug witness): an unrecognised engine selector does make
the call fail, but not with the intended invalid-engine assertion
message — evaluating the assert message `"...".fotmat(engine)` raises
an `AttributeError` about `fotmat` first, so the selector is never
reported. -/
theorem engine_typo_attributeerror :
    getEngine true "cython"
      = .error (.attributeError "str object has no attribute fotmat")
    ∧ potential envC [1] [1] [1] [] none (some 1) "cython" 1
      = .error (.attributeError "str object has no attribute fotmat") :=
  ⟨rfl, rfl⟩

/-- A failed precondition makes `_check_input` raise an assertion
error whose message does not depend on the model. -/
lemma check_input_err (lon lat height : List ℚ) (rat : ℚ) (njobs : Int)
    (hbad : ¬(lon.length = lat.length ∧ lat.length = height.length)
      ∨ rat ≤ 0 ∨ njobs ≤ 0) :
    ∃ msg, ∀ model : List (Option Tesseroid),
      check_input lon lat height model rat njobs
        = .error (.assertionError msg) := by
  by_cases h1 : ¬(lon.length = lat.length ∧ lat.length = height.length)
  · exact ⟨_, fun model => by unfold check_input; rw [if_pos h1]⟩
  · by_cases h2 : ¬(0 < rat)
    · exact ⟨_, fun model => by unfold check_input; rw [if_neg h1, if_pos h2]⟩
    · have h3 : ¬(0 < njobs) := by
        rcases hbad with hb | hb | hb
        · exact absurd hb h1
        · exact absurd (not_not.mp h2) (not_lt.mpr hb)
        · omega
      exact ⟨_, fun model => by
        unfold check_input; rw [if_neg h1, if_neg h2, if_pos h3]⟩

/-- A failed precondition makes the whole field call raise that
assertion error, before and independently of any per-tesseroid
computation: the message does not depend on the environment, the
model, the density override or the engine. -/
lemma fieldTemplate_check_err (field : String) (scale dfl : ℚ)
    (lon lat height : List ℚ) (ratioOpt : Option ℚ) (njobs : Int)
    (hbad : ¬(lon.length = lat.length ∧ lat.length = height.length)
      ∨ (∃ r, ratioOpt = some r ∧ r ≤ 0) ∨ njobs ≤ 0) :
    ∃ msg, ∀ (env : Env) (model : List (Option Tesseroid))
      (dens : Option ℚ) (engine : String),
      fieldTemplate env field scale dfl lon lat height model dens ratioOpt
          engine njobs
        = .error (.assertionError msg) := by
  have hbad2 : ¬(lon.length = lat.length ∧ lat.length = height.length)
      ∨ ratioOpt.getD dfl ≤ 0 ∨ njobs ≤ 0 := by
    rcases hbad with h | ⟨r, hr, hle⟩ | h
    · exact Or.inl h
    · subst hr; exact Or.inr (Or.inl (by simpa using hle))
    · exact Or.inr (Or.inr h)
  obtain ⟨msg, hmsg⟩ :=
    check_input_err lon lat height (ratioOpt.getD dfl) njobs hbad2
  refine ⟨msg, fun env model dens engine => ?_⟩
  unfold fieldTemplate
  simp only [hmsg model]

/-- C2: for every call to any of the ten field functions in which the
coordinate arrays do not all share one shape, or the passed ratio is
not positive, or `njobs` is not positive, the call fails with an
assertion error raised before any per-tesseroid computation — the
error does not depend on the environment, model, density override or
engine — and no result array is returned. -/
theorem precondition_failures_error
    (F : Env → List ℚ → List ℚ → List ℚ → List (Option Tesseroid) →
      Option ℚ → Option ℚ → String → Int → Except PyError (List ℚ))
    (hF : F ∈ allFieldCalls)
    (lon lat height : List ℚ) (ratioOpt : Option ℚ) (njobs : Int)
    (hbad : ¬(lon.length = lat.length ∧ lat.length = height.length)
      ∨ (∃ r, ratioOpt = some r ∧ r ≤ 0) ∨ njobs ≤ 0) :
    ∃ msg, ∀ (env : Env) (model : List (Option Tesseroid))
      (dens : Option ℚ) (engine : String),
      F env lon lat height model dens ratioOpt engine njobs
        = .error (.assertionError msg) := by
  simp only [allFieldCalls, List.mem_cons, List.not_mem_nil, or_false] at hF
  rcases hF with rfl | rfl | rfl | rfl | rfl | rfl | rfl | rfl | rfl | rfl
  all_goals exact fieldTemplate_check_err _ _ _ lon lat height ratioOpt njobs hbad

/-- C2 witness: mismatched coordinate shapes make a concrete
`potential` call fail with an assertion error. -/
theorem precondition_failures_error_witness :
    (¬(([1] : List ℚ).length = ([] : List ℚ).length ∧
        ([] : List ℚ).length = ([] : List ℚ).length))
    ∧ ∃ msg, ∀ (env : Env) (model : List (Option Tesseroid))
        (dens : Option ℚ) (engine : String),
        potential env [1] [] [] model dens none engine 1
          = .error (.assertionError msg) :=
  ⟨by decide,
   precondition_failures_error potential (by simp [allFieldCalls])
     [1] [] [] none 1 (Or.inl (by decide))⟩

/-- When the engine fails to resolve, the whole call fails with that
error on otherwise valid input, on both the single-job and the
multi-job path. -/
lemma fieldTemplate_engine_err (env : Env) (field : String) (scale dfl : ℚ)
    (lon lat height : List ℚ) (model : List (Option Tesseroid))
    (dens : Option ℚ) (ratioOpt : Option ℚ) (engine : String)
    (njobs : Int) (err : PyError)
    (hla : lat.length = lon.length) (hh : height.length = lon.length)
    (hr : 0 < ratioOpt.getD dfl) (hn : 1 ≤ njobs)
    (he : getEngine env.numbaOk engine = .error err) :
    fieldTemplate env field scale dfl lon lat height model dens ratioOpt
        engine njobs = .error err := by
  have hchk : check_input lon lat height model (ratioOpt.getD dfl) njobs
      = .ok (List.replicate lon.length 0) := by
    unfold check_input
    rw [if_neg (not_not_intro ⟨hla.symm, by omega⟩),
      if_neg (not_not_intro hr),
      if_neg (not_not_intro (by omega : (0:Int) < njobs))]
  unfold fieldTemplate
  simp only [hchk]
  by_cases hj : njobs = 1
  · rw [if_pos hj,
      dispatcher_err env lon lat height _ model dens _ engine field err he]
  · rw [if_neg hj]
    have h2 : 2 ≤ njobs.toNat := by omega
    obtain ⟨strides0, hss⟩ :
        ∃ s, split_strides lon.length njobs.toNat = some s :=
      ⟨_, split_strides_eq lon.length h2⟩
    have hsc : splitChunks lon lat height (List.replicate lon.length 0)
        njobs.toNat
        = some (strides0.map (fun p =>
            (sliceL lon p, sliceL lat p, sliceL height p,
             sliceL (List.replicate lon.length 0) p))) := by
      unfold splitChunks
      rw [hss]
      rfl
    simp only [hsc]
    have hne : strides0 ≠ [] := by
      rw [split_strides_eq lon.length h2] at hss
      injection hss with hss
      subst hss
      simp
    obtain ⟨p0, ps, rfl⟩ : ∃ p0 ps, strides0 = p0 :: ps := by
      cases strides0 with
      | nil => exact absurd rfl hne
      | cons a l => exact ⟨a, l, rfl⟩
    simp only [List.map_cons, List.mapM_cons,
      dispatcher_err env _ _ _ _ model dens _ engine field err he]
    rfl

/-- C3 counterexample: with the numba import available, a valid
one-point call with `engine = numpy` fails with a `NameError` while the
same call with `engine = numba` succeeds, so the engine selector does
affect the observable outcome and the numpy call does not succeed. -/
theorem engine_selector_counterexample :
    potential envC [1] [1] [1] [] none (some 1) "numpy" 1
      ≠ potential envC [1] [1] [1] [] none (some 1) "numba" 1 := by
  intro hcontra
  have h1 : potential envC [1] [1] [1] [] none (some 1) "numpy" 1
      = .error (.nameError "name _tesseroid_numpy is not defined") := rfl
  have h2 : potential envC [1] [1] [1] [] none (some 1) "numba" 1
      = .ok [0 * G] := rfl
  rw [h1, h2] at hcontra
  exact Except.noConfusion hcontra

/-- C3 (amended): on valid input with the numba import available,
`engine = default` and `engine = numba` produce identical results and
succeed; `engine = numpy` instead fails with the `NameError` for the
undefined `_tesseroid_numpy` module. -/
theorem engine_selector_equivalence (env : Env) (field : String)
    (scale dfl : ℚ) (lon lat height : List ℚ)
    (model : List (Option Tesseroid)) (dens : Option ℚ)
    (ratioOpt : Option ℚ) (njobs : Int)
    (hla : lat.length = lon.length) (hh : height.length = lon.length)
    (hr : 0 < ratioOpt.getD dfl) (hn : 1 ≤ njobs)
    (hok : env.numbaOk = true) :
    fieldTemplate env field scale dfl lon lat height model dens ratioOpt
        "default" njobs
      = fieldTemplate env field scale dfl lon lat height model dens ratioOpt
        "numba" njobs
    ∧ (∃ r, fieldTemplate env field scale dfl lon lat height model dens
        ratioOpt "numba" njobs = .ok r)
    ∧ fieldTemplate env field scale dfl lon lat height model dens ratioOpt
        "numpy" njobs
      = .error (.nameError "name _tesseroid_numpy is not defined") := by
  have hedef : getEngine env.numbaOk "default" = .ok .numbaMod := by
    rw [hok]; rfl
  have henb : getEngine env.numbaOk "numba" = .ok .numbaMod := by
    rw [hok]; rfl
  have henp : getEngine env.numbaOk "numpy"
      = .error (.nameError "name _tesseroid_numpy is not defined") := by
    rw [hok]; rfl
  refine ⟨?_,
    ⟨_, fieldTemplate_ok env field scale dfl lon lat height model dens
      ratioOpt "numba" njobs .numbaMod hla hh hr hn henb⟩,
    fieldTemplate_engine_err env field scale dfl lon lat height model dens
      ratioOpt "numpy" njobs _ hla hh hr hn henp⟩
  rw [fieldTemplate_ok env field scale dfl lon lat height model dens
      ratioOpt "default" njobs .numbaMod hla hh hr hn hedef,
    fieldTemplate_ok env field scale dfl lon lat height model dens
      ratioOpt "numba" njobs .numbaMod hla hh hr hn henb]

/-- C3 witness: the amended engine equivalence at a concrete valid
one-point call. -/
theorem engine_selector_equivalence_witness :
    (0:ℚ) < (some (1:ℚ)).getD RATIO_V
    ∧ (fieldTemplate envC "potential" G RATIO_V [1] [1] [1] [some tessC]
          none (some 1) "default" 1
        = fieldTemplate envC "potential" G RATIO_V [1] [1] [1] [some tessC]
          none (some 1) "numba" 1
      ∧ (∃ r, fieldTemplate envC "potential" G RATIO_V [1] [1] [1]
          [some tessC] none (some 1) "numba" 1 = .ok r)
      ∧ fieldTemplate envC "potential" G RATIO_V [1] [1] [1] [some tessC]
          none (some 1) "numpy" 1
        = .error (.nameError "name _tesseroid_numpy is not defined")) :=
  ⟨by norm_num,
   engine_selector_equivalence envC "potential" G RATIO_V [1] [1] [1]
     [some tessC] none (some 1) 1 rfl rfl (by norm_num) (by norm_num) rfl⟩

/-- C5: on valid input, a call with any `njobs >= 1` succeeds and its
result equals the `njobs = 1` result exactly; the multi-job path splits
the four arrays into `njobs` contiguous chunks and concatenates the
per-chunk dispatcher results in chunk order, as embedded in
`splitChunks`. -/
theorem njobs_partition_equivalence (env : Env) (field : String)
    (scale dfl : ℚ) (lon lat height : List ℚ)
    (model : List (Option Tesseroid)) (dens : Option ℚ)
    (ratioOpt : Option ℚ) (engine : String) (njobs : Int)
    (m : EngineModule)
    (hla : lat.length = lon.length) (hh : height.length = lon.length)
    (hr : 0 < ratioOpt.getD dfl) (hn : 1 ≤ njobs)
    (he : getEngine env.numbaOk engine = .ok m) :
    (∃ r, fieldTemplate env field scale dfl lon lat height model dens
      ratioOpt engine njobs = .ok r)
    ∧ fieldTemplate env field scale dfl lon lat height model dens ratioOpt
        engine njobs
      = fieldTemplate env field scale dfl lon lat height model dens ratioOpt
        engine 1
    ∧ (2 ≤ njobs → ∃ chunks,
        splitChunks lon lat height (List.replicate lon.length 0) njobs.toNat
          = some chunks
        ∧ chunks.length = njobs.toNat) := by
  refine ⟨⟨_, fieldTemplate_ok env field scale dfl lon lat height model dens
    ratioOpt engine njobs m hla hh hr hn he⟩, ?_, ?_⟩
  · rw [fieldTemplate_ok env field scale dfl lon lat height model dens
      ratioOpt engine njobs m hla hh hr hn he,
      fieldTemplate_ok env field scale dfl lon lat height model dens
      ratioOpt engine 1 m hla hh hr (le_refl 1) he]
  · intro h2i
    have h2 : 2 ≤ njobs.toNat := by omega
    refine ⟨((List.range (njobs.toNat - 1)).map
        (fun i => (i * (lon.length / njobs.toNat),
          (i + 1) * (lon.length / njobs.toNat)))
        ++ [((njobs.toNat - 1) * (lon.length / njobs.toNat), lon.length)]).map
        (fun p => (sliceL lon p, sliceL lat p, sliceL height p,
          sliceL (List.replicate lon.length 0) p)), ?_, ?_⟩
    · unfold splitChunks
      rw [split_strides_eq lon.length h2]
      rfl
    · simp only [List.length_map, List.length_append, List.length_range,
        List.length_singleton]
      omega

/-- C5 witness: a concrete three-point, one-tesseroid call with
`njobs = 2` succeeds, equals the `njobs = 1` call, and splits into two
chunks. -/
theorem njobs_partition_equivalence_witness :
    (1:Int) ≤ 2
    ∧ ((∃ r, fieldTemplate envC "gz" (SI2MGAL * G) RATIO_G [1, 2, 3]
        [4, 5, 6] [7, 8, 9] [some tessC] (some 2) (some 1) "numba" 2
          = .ok r)
      ∧ fieldTemplate envC "gz" (SI2MGAL * G) RATIO_G [1, 2, 3] [4, 5, 6]
          [7, 8, 9] [some tessC] (some 2) (some 1) "numba" 2
        = fieldTemplate envC "gz" (SI2MGAL * G) RATIO_G [1, 2, 3] [4, 5, 6]
          [7, 8, 9] [some tessC] (some 2) (some 1) "numba" 1
      ∧ (2 ≤ (2:Int) → ∃ chunks,
          splitChunks [1, 2, 3] [4, 5, 6] [7, 8, 9]
            (List.replicate ([1, 2, 3] : List ℚ).length 0) (2:Int).toNat
            = some chunks
          ∧ chunks.length = (2:Int).toNat)) :=
  ⟨by norm_num,
   njobs_partition_equivalence envC "gz" (SI2MGAL * G) RATIO_G [1, 2, 3]
     [4, 5, 6] [7, 8, 9] [some tessC] (some 2) (some 1) "numba" 2 .numbaMod
     rfl rfl (by norm_num) (by norm_num) rfl⟩

/-- A null element, or a tesseroid without the density property when no
override is given, resolves to no density. -/
lemma getDensity_skip (x : Option Tesseroid)
    (hx : x = none ∨ ∃ t, x = some t ∧ propsLookup t.props "density" = none) :
    getDensity x none = none := by
  rcases hx with rfl | ⟨t, rfl, hp⟩
  · rfl
  · simp [getDensity, hp]

/-- A model whose every element resolves to no density contributes
nothing at any observation point. -/
lemma pointContrib_skip (k : KernelT) (field : String) (rat : ℚ)
    (lo sl cl ra : ℚ) :
    ∀ model : List (Option Tesseroid),
      (∀ x ∈ model, getDensity x none = none) →
      ∀ x0 : ℚ, pointContrib k field none rat lo sl cl ra model x0 = x0 := by
  intro model
  induction model with
  | nil => intro _ x0; rfl
  | cons tess rest ih =>
    intro hall x0
    have hd := hall tess (List.mem_cons_self ..)
    have hstep : stepPoint k field none rat lo sl cl ra tess x0 = x0 := by
      unfold stepPoint
      cases tess with
      | none => rfl
      | some t => simp [hd]
    show pointContrib k field none rat lo sl cl ra rest
      (stepPoint k field none rat lo sl cl ra tess x0) = x0
    rw [hstep]
    exact ih (fun y hy => hall y (List.mem_cons_of_mem _ hy)) x0

/-- A `zipWith4` whose function only returns its fourth argument
reproduces the fourth list, here a zero buffer of matching length. -/
lemma zipWith4_skip (g : ℚ → ℚ → ℚ → ℚ → ℚ)
    (hg : ∀ a b c d, g a b c d = d) :
    ∀ (lon lat height : List ℚ),
      lat.length = lon.length → height.length = lon.length →
      zipWith4 g lon lat height (List.replicate lon.length 0)
        = List.replicate lon.length 0 := by
  intro lon
  induction lon with
  | nil => intro lat height _ _; cases lat <;> cases height <;> rfl
  | cons a as ih =>
    intro lat height hla hh
    cases lat with
    | nil => simp at hla
    | cons b bs =>
      cases height with
      | nil => simp at hh
      | cons c cs =>
        simp only [List.length_cons, Nat.succ_inj] at hla hh
        rw [List.length_cons, List.replicate_succ]
        have hcons : zipWith4 g (a :: as) (b :: bs) (c :: cs)
            (0 :: List.replicate as.length 0)
          = g a b c 0 :: zipWith4 g as bs cs (List.replicate as.length 0) :=
          rfl
        rw [hcons, hg, ih bs cs hla hh]

/-- C7: when every model element is null or a tesseroid lacking the
density property, and no density override is given, a valid call to any
field function returns — without error — an all-zero array of the same
shape as `lon`: each element is skipped and contributes nothing to the
zero-initialised buffer. -/
theorem null_model_returns_zeros (env : Env) (field : String)
    (scale dfl : ℚ) (lon lat height : List ℚ)
    (model : List (Option Tesseroid)) (ratioOpt : Option ℚ)
    (engine : String) (njobs : Int) (m : EngineModule)
    (hla : lat.length = lon.length) (hh : height.length = lon.length)
    (hr : 0 < ratioOpt.getD dfl) (hn : 1 ≤ njobs)
    (he : getEngine env.numbaOk engine = .ok m)
    (hmodel : ∀ x ∈ model,
      x = none ∨ ∃ t, x = some t ∧ propsLookup t.props "density" = none) :
    fieldTemplate env field scale dfl lon lat height model none ratioOpt
        engine njobs
      = .ok (List.replicate lon.length 0) := by
  rw [fieldTemplate_ok env field scale dfl lon lat height model none
    ratioOpt engine njobs m hla hh hr hn he]
  have hskip : ∀ x ∈ model, getDensity x none = none :=
    fun x hx => getDensity_skip x (hmodel x hx)
  have hpt : ∀ a b c d,
      pointAt env field model none (ratioOpt.getD dfl) a b c d = d := by
    intro a b c d
    unfold pointAt
    exact pointContrib_skip env.kernel field _ _ _ _ _ model hskip d
  rw [zipWith4_skip _ hpt lon lat height hla hh]
  simp [List.map_replicate, zero_mul]

/-- C7 witness: a concrete two-point call over a model holding one null
element and one densityless tesseroid returns the zero array. -/
theorem null_model_returns_zeros_witness :
    (∀ x ∈ ([none, some tessND] : List (Option Tesseroid)),
      x = none ∨ ∃ t, x = some t ∧ propsLookup t.props "density" = none)
    ∧ fieldTemplate envC "gxx" (SI2EOTVOS * G) RATIO_GG [1, 2] [3, 4] [5, 6]
        [none, some tessND] none none "default" 1
      = .ok (List.replicate ([1, 2] : List ℚ).length 0) :=
  ⟨by
    intro x hx
    rcases List.mem_cons.mp hx with rfl | hx2
    · exact Or.inl rfl
    · rcases List.mem_cons.mp hx2 with rfl | hx3
      · exact Or.inr ⟨tessND, rfl, rfl⟩
      · exact absurd hx3 (List.not_mem_nil x),
   null_model_returns_zeros envC "gxx" (SI2EOTVOS * G) RATIO_GG [1, 2]
     [3, 4] [5, 6] [none, some tessND] none "default" 1 .numbaMod rfl rfl
     (by norm_num [RATIO_GG]) (by norm_num) rfl
     (by
       intro x hx
       rcases List.mem_cons.mp hx with rfl | hx2
       · exact Or.inl rfl
       · rcases List.mem_cons.mp hx2 with rfl | hx3
         · exact Or.inr ⟨tessND, rfl, rfl⟩
         · exact absurd hx3 (List.not_mem_nil x))⟩

/-- Writing one id leaves every other id unchanged. -/
lemma readA_writeA_ne (hh : Heap) (j : Nat) (v : List ℚ) (i : Nat)
    (hij : i ≠ j) : readA (writeA hh j v) i = readA hh i := by
  unfold readA writeA
  rw [List.getD_eq_getElem?_getD, List.getD_eq_getElem?_getD,
    List.getElem?_set_ne (by omega)]

/-- Allocation leaves every live id unchanged. -/
lemma readA_allocA_lt (h : Heap) (v : List ℚ) (i : Nat)
    (hi : i < h.arrays.length) : readA (allocA h v).1 i = readA h i := by
  unfold readA allocA
  rw [List.getD_eq_getElem?_getD, List.getD_eq_getElem?_getD,
    List.getElem?_append_left hi]

/-- One loop iteration writes only the result buffer. -/
lemma heapStep_frame (k : KernelT) (field : String) (dens : Option ℚ)
    (rat : ℚ) (lonrId slId clId radId resId : Nat)
    (tess : Option Tesseroid) (hh : Heap) (i : Nat) (hi : i ≠ resId) :
    readA (heapStep k field dens rat lonrId slId clId radId resId tess hh) i
      = readA hh i := by
  unfold heapStep
  cases tess with
  | none => rfl
  | some t =>
    cases hd : getDensity (some t) dens with
    | none => simp [hd]
    | some density =>
      simp only [hd]
      exact readA_writeA_ne hh resId _ i hi

/-- The whole loop writes only the result buffer. -/
lemma heapModelLoop_frame (k : KernelT) (field : String) (dens : Option ℚ)
    (rat : ℚ) (lonrId slId clId radId resId : Nat) :
    ∀ (model : List (Option Tesseroid)) (hh : Heap) (i : Nat), i ≠ resId →
      readA (heapModelLoop k field dens rat lonrId slId clId radId resId
        model hh) i = readA hh i := by
  intro model
  induction model with
  | nil => intro hh i _; rfl
  | cons tess rest ih =>
    intro hh i hi
    show readA (heapModelLoop k field dens rat lonrId slId clId radId resId
      rest (heapStep k field dens rat lonrId slId clId radId resId tess hh))
      i = readA hh i
    rw [ih _ i hi]
    exact heapStep_frame k field dens rat lonrId slId clId radId resId tess
      hh i hi

/-- Six successive allocations leave every live id unchanged. -/
lemma readA_alloc6 (h0 : Heap) (v1 v2 v3 v4 v5 v6 : List ℚ) (j : Nat)
    (hj : j < h0.arrays.length) :
    readA (allocA (allocA (allocA (allocA (allocA (allocA h0 v1).1 v2).1
      v3).1 v4).1 v5).1 v6).1 j = readA h0 j := by
  rw [readA_allocA_lt, readA_allocA_lt, readA_allocA_lt, readA_allocA_lt,
    readA_allocA_lt, readA_allocA_lt] <;>
    (try simp only [allocA, List.length_append, List.length_singleton]) <;>
    omega

/-- The success path of the heap-level call — six allocations, the
loop, and the final scaling write at the fresh result id — leaves
every array live before the call unchanged. -/
lemma heap_run_frame (k : KernelT) (field : String) (dens : Option ℚ)
    (rat : ℚ) (h0 : Heap) (v1 v2 v3 v4 v5 v6 : List ℚ)
    (i2 i4 i5 i6 : Nat) (model : List (Option Tesseroid))
    (w : List ℚ) (i : Nat) (hi : i < h0.arrays.length) :
    readA (writeA (heapModelLoop k field dens rat i2 i4 i5 i6
        h0.arrays.length model
        (allocA (allocA (allocA (allocA (allocA (allocA h0 v1).1 v2).1 v3).1
          v4).1 v5).1 v6).1)
      h0.arrays.length w) i = readA h0 i := by
  rw [readA_writeA_ne _ _ _ i (Nat.ne_of_lt hi),
    heapModelLoop_frame k field dens rat i2 i4 i5 i6 _ model _ i
      (Nat.ne_of_lt hi)]
  exact readA_alloc6 h0 v1 v2 v3 v4 v5 v6 i hi

/-- C10: with `njobs = 1`, a valid call never mutates the caller's
`lon`, `lat` and `height` arrays (the model enters as an immutable
value): the coordinate conversion allocates fresh arrays, the only
buffer written is the freshly allocated result array, and that buffer
is the returned value. -/
theorem orchestrator_frame (env : Env) (field : String) (scale dfl : ℚ)
    (h0 : Heap) (lonId latId heightId : Nat)
    (model : List (Option Tesseroid)) (dens : Option ℚ)
    (ratioOpt : Option ℚ) (engine : String) (m : EngineModule)
    (hsh : (readA h0 lonId).length = (readA h0 latId).length ∧
      (readA h0 latId).length = (readA h0 heightId).length)
    (hr : 0 < ratioOpt.getD dfl)
    (he : getEngine env.numbaOk engine = .ok m) :
    ∃ q : Heap × Nat,
      heapFieldNjobs1 env field scale dfl h0 lonId latId heightId model
        dens ratioOpt engine = .ok q
      ∧ (∀ i, i < h0.arrays.length → readA q.1 i = readA h0 i)
      ∧ h0.arrays.length ≤ q.2 := by
  unfold heapFieldNjobs1
  rw [if_neg (not_not_intro hsh), if_neg (not_not_intro hr), he]
  refine ⟨_, rfl, ?_, ?_⟩
  · intro i hi
    exact heap_run_frame env.kernel field dens (ratioOpt.getD dfl) h0
      _ _ _ _ _ _ _ _ _ _ model _ i hi
  · exact Nat.le_refl _

/-- C10 witness: a concrete valid call on a three-array store leaves
the three argument arrays untouched and returns a fresh id. -/
theorem orchestrator_frame_witness :
    ((readA heapC 0).length = (readA heapC 1).length ∧
      (readA heapC 1).length = (readA heapC 2).length)
    ∧ ∃ q : Heap × Nat,
        heapFieldNjobs1 envC "gz" 1 1 heapC 0 1 2 [] none (some 1) "numba"
          = .ok q
        ∧ (∀ i, i < heapC.arrays.length → readA q.1 i = readA heapC i)
        ∧ heapC.arrays.length ≤ q.2 :=
  ⟨⟨rfl, rfl⟩,
   orchestrator_frame envC "gz" 1 1 heapC 0 1 2 [] none (some 1) "numba"
     .numbaMod ⟨rfl, rfl⟩ (by norm_num) rfl⟩

end Claims

end Fatiando
